import Mathlib

/-!
Verification of the resumable video-processing pipeline
(`process_video.py`): checkpoint store, pipeline orchestrator,
silence-removal fallback, transcription failure handling, highlight
summarizer and filename sanitizer, shallowly embedded in Lean.

Modelling conventions:
* The filesystem is an association list from paths to typed file
  contents (`FS`); `json.dump`/`json.load` of a value round-trips at the
  value level (the standard library's contract), so a file holds the
  structured value it was written with, or `corruptD` for unparseable
  contents.
* Times in transcript segments are rationals (the Python floats in the
  examples are exact).
* A Python dict for a transcript segment is a record of `Option` fields;
  an access to a missing key is a `KeyError`, modelled by `Except`.
* External collaborators (downloader, pydub, ffmpeg, whisper) are
  parameters of a `Config`, with the outcomes the code distinguishes.
-/

/-- A transcript segment as a Python dict: each of the keys
`start`, `end`, `text` may be absent. -/
structure SegmentD where
  start : Option ℚ
  «end» : Option ℚ
  text : Option String
deriving DecidableEq

/-- The checkpoint record `{url, title, downloaded, silence_removed,
transcribed, summary_generated, completed}`; `none` models an absent key
(`dict.get(key, False)` then yields `False`). -/
structure Checkpoint where
  url : Option String := none
  title : Option String := none
  downloaded : Option Bool := none
  silence_removed : Option Bool := none
  transcribed : Option Bool := none
  summary_generated : Option Bool := none
  completed : Option Bool := none
deriving DecidableEq

/-- Audio data as an opaque term algebra: raw downloads, pydub chunk
concatenation (chunks are opaque identifiers handed back by
`split_on_silence`), and ffmpeg-filter output. -/
inductive AudioData where
  | raw (id : ℕ)
  | concat (chunks : List ℕ)
  | ffmpegOut (src : AudioData)
deriving DecidableEq

/-- Typed file contents: audio files, the checkpoint JSON, the
transcription JSON (a list of segment dicts), text files, and
unparseable contents. -/
inductive FileData where
  | audioD (a : AudioData)
  | ckD (c : Checkpoint)
  | segsD (s : List SegmentD)
  | textD (s : String)
  | corruptD
deriving DecidableEq

/-- The filesystem: an association list from paths to contents
(most recent write first). -/
def FS : Type := List (String × FileData)

instance : DecidableEq FS := by unfold FS; infer_instance

/-- Read a file (`open` + parse): `none` means the path does not exist. -/
def lookupFS (p : String) (fs : FS) : Option FileData :=
  List.lookup p fs

/-- Write a file, replacing any previous contents at that path. -/
def setFS (p : String) (d : FileData) (fs : FS) : FS :=
  (p, d) :: fs

/-- `os.path.exists`. -/
def fsExists (p : String) (fs : FS) : Bool :=
  (lookupFS p fs).isSome

/-- Path of the hidden checkpoint file inside a source folder. -/
def checkpointFile (video_folder : String) : String :=
  video_folder ++ "/.checkpoint.json"

/-- `load_checkpoint`: returns the parsed checkpoint if the file exists
and parses, and the empty record `{}` if it is absent or corrupt. -/
def load_checkpoint (video_folder : String) (fs : FS) : Checkpoint :=
  match lookupFS (checkpointFile video_folder) fs with
  | some (FileData.ckD c) => c
  | some _ => {}
  | none => {}

/-- `save_checkpoint`: writes the checkpoint record to the hidden file. -/
def save_checkpoint (video_folder : String) (state : Checkpoint) (fs : FS) : FS :=
  setFS (checkpointFile video_folder) (FileData.ckD state) fs

/-- Python `a % b` on numbers (sign follows the divisor). -/
def pymod (a b : ℚ) : ℚ := a - b * ⌊a / b⌋

/-- Python `int(q)`: truncation toward zero. -/
def pyint (q : ℚ) : ℤ := if 0 ≤ q then ⌊q⌋ else -⌊-q⌋

/-- Python `f"{n:02d}"`: zero-pad to two digits. -/
def pad2 (n : ℤ) : String :=
  if 0 ≤ n ∧ n < 10 then "0" ++ toString n else toString n

/-- One emitted highlight: time span, space-joined text, and the number
printed after the word `Highlight` in its header. -/
structure Highlight where
  hstart : ℚ
  hend : ℚ
  htext : String
  label : ℕ
deriving DecidableEq

/-- The mutable state of `generate_summary`'s grouping loop, plus the
highlights emitted so far. -/
structure LoopState where
  current_time : ℚ
  highlight_count : ℕ
  current_highlight_text : List String
  current_highlight_start : ℚ
  emitted : List Highlight
deriving DecidableEq

/-- The `for i, segment in enumerate(segments)` grouping loop of
`generate_summary`. A missing dict key raises (`Except.error`). -/
def sumLoopGo : List SegmentD → ℕ → LoopState → Except String LoopState
  | [], _, st => Except.ok st
  | seg :: rest, i, st =>
    match seg.start with
    | none => Except.error "KeyError"
    | some s =>
      if s - st.current_time > 60 ∨ i = 0 then
        let st1 :=
          if st.current_highlight_text ≠ [] ∧ 0 < i then
            { st with
              emitted := st.emitted ++ [⟨st.current_highlight_start, st.current_time,
                String.intercalate " " st.current_highlight_text, st.highlight_count⟩],
              highlight_count := st.highlight_count + 1 }
          else st
        match seg.text, seg.«end» with
        | some t, some e =>
            sumLoopGo rest (i + 1)
              { st1 with
                current_highlight_text := [t]
                current_highlight_start := s
                current_time := e }
        | _, _ => Except.error "KeyError"
      else
        match seg.text, seg.«end» with
        | some t, some e =>
            sumLoopGo rest (i + 1)
              { st with
                current_highlight_text := st.current_highlight_text ++ [t]
                current_time := e }
        | _, _ => Except.error "KeyError"

/-- The full highlight-emission of `generate_summary`: run the grouping
loop from the initial state, then emit the still-open window (its end
time read from `segments[-1]["end"]`, its number `highlight_count + 1`). -/
def highlightsOf (segments : List SegmentD) : Except String (List Highlight) :=
  match sumLoopGo segments 0 ⟨0, 0, [], 0, []⟩ with
  | Except.error e => Except.error e
  | Except.ok st =>
    if st.current_highlight_text = [] then Except.ok st.emitted
    else
      match segments.getLast? with
      | some last =>
        match last.«end» with
        | some e =>
          Except.ok (st.emitted ++ [⟨st.current_highlight_start, e,
            String.intercalate " " st.current_highlight_text, st.highlight_count + 1⟩])
        | none => Except.error "KeyError"
      | none => Except.ok st.emitted

/-- Rendering of one highlight section header and body. -/
def renderHighlight (h : Highlight) : String :=
  "### [" ++ pad2 ⌊h.hstart / 60⌋ ++ ":" ++ pad2 (pyint (pymod h.hstart 60)) ++ " - " ++
    pad2 ⌊h.hend / 60⌋ ++ ":" ++ pad2 (pyint (pymod h.hend 60)) ++ "] Highlight " ++
    toString h.label ++ "\n\n" ++ h.htext ++ "\n\n"

/-- The full-transcription listing at the end of the report: one
timestamped line per segment (raises on a missing key). -/
def renderTranscriptLines : List SegmentD → Except String String
  | [] => Except.ok ""
  | seg :: rest =>
    match seg.start with
    | none => Except.error "KeyError"
    | some s =>
      match seg.text with
      | none => Except.error "KeyError"
      | some t =>
        match renderTranscriptLines rest with
        | Except.error e => Except.error e
        | Except.ok r =>
          Except.ok ("**[" ++ pad2 ⌊s / 60⌋ ++ ":" ++ pad2 (pyint (pymod s 60)) ++ "]** " ++
            t ++ "\n\n" ++ r)

/-- `generate_summary(segments, title)`. `Except.error` models an
uncaught Python exception (a `KeyError` from a malformed segment). -/
def generate_summary (segments : List SegmentD) (title : String) : Except String String :=
  if segments.isEmpty then
    Except.ok ("# Video Summary: " ++ title ++ "\n\nNo transcription available.")
  else
    match segments.getLast? with
    | none => Except.ok ("# Video Summary: " ++ title ++ "\n\nNo transcription available.")
    | some last =>
      match last.«end» with
      | none => Except.ok ("# Video Summary: " ++ title ++ "\n\nInvalid transcription data.")
      | some total_duration =>
        let hours := ⌊total_duration / 3600⌋
        let minutes := ⌊pymod total_duration 3600 / 60⌋
        let seconds := pyint (pymod total_duration 60)
        match highlightsOf segments with
        | Except.error e => Except.error e
        | Except.ok hs =>
          match renderTranscriptLines segments with
          | Except.error e => Except.error e
          | Except.ok transcript =>
            Except.ok ("# Video Summary: " ++ title ++ "\n\n" ++
              "**Total Duration:** " ++ pad2 hours ++ ":" ++ pad2 minutes ++ ":" ++
              pad2 seconds ++ "\n" ++
              "**Total Segments:** " ++ toString segments.length ++ "\n\n" ++
              "## ğŸ¯ Key Highlights\n\n" ++
              String.join (hs.map renderHighlight) ++
              "---\n\n" ++
              "## ğŸ“ Full Transcription\n\n" ++
              transcript)

/-- A highlight as the spec describes it: window span and joined text
(the spec numbers highlights by emission order, so no number is stored). -/
structure SHighlight where
  wstart : ℚ
  wend : ℚ
  wtext : String
deriving DecidableEq

/-- Modelled from the spec (§4.4 grouping algorithm), for comparison
with the code's loop: maintain a running window; a subsequent segment
whose start minus the window's last absorbed end exceeds 60 closes the
window, otherwise it is absorbed; the open window is emitted at the end. -/
def specGroupGo (wstart wend : ℚ) (texts : List String) :
    List (ℚ × ℚ × String) → List SHighlight
  | [] => [⟨wstart, wend, String.intercalate " " texts⟩]
  | (s, e, t) :: rest =>
    if s - wend > 60 then
      ⟨wstart, wend, String.intercalate " " texts⟩ :: specGroupGo s e [t] rest
    else
      specGroupGo wstart e (texts ++ [t]) rest

/-- Modelled from the spec (§4.4): the first segment always starts a new
window. -/
def specGroup : (ℚ × ℚ × String) → List (ℚ × ℚ × String) → List SHighlight
  | (s, e, t), rest => specGroupGo s e [t] rest

/-- A fully-populated segment dict from a `(start, end, text)` triple. -/
def mkSeg (x : ℚ × ℚ × String) : SegmentD := ⟨some x.1, some x.2.1, some x.2.2⟩

/-- Forget the emitted number of a code-level highlight. -/
def stripLabel (h : Highlight) : SHighlight := ⟨h.hstart, h.hend, h.htext⟩

/-- The end time of the last element of a triple list, or a default. -/
def lastEndOr (d : ℚ) (l : List (ℚ × ℚ × String)) : ℚ :=
  ((l.getLast?).map (fun y => y.2.1)).getD d

/-- Decidable equality of `Except` results, for evaluating the embedding
at concrete inputs. -/
instance {e a : Type} [DecidableEq e] [DecidableEq a] : DecidableEq (Except e a)
  | Except.ok x, Except.ok y =>
    if h : x = y then Decidable.isTrue (by rw [h])
    else Decidable.isFalse (by intro hc; cases hc; exact h rfl)
  | Except.error x, Except.error y =>
    if h : x = y then Decidable.isTrue (by rw [h])
    else Decidable.isFalse (by intro hc; cases hc; exact h rfl)
  | Except.ok _, Except.error _ => Decidable.isFalse (by intro hc; cases hc)
  | Except.error _, Except.ok _ => Decidable.isFalse (by intro hc; cases hc)

/-- The characters removed by the first substitution:
`re.sub(r'[<>:"/\\|?*]', '', title)`. -/
def invalidChar (c : Char) : Bool :=
  c == '<' || c == '>' || c == ':' || c == '"' || c == '/' ||
    c == '\\' || c == '|' || c == '?' || c == '*'

/-- ASCII whitespace matched by the `\s` class (space, tab, newline,
carriage return, vertical tab, form feed). -/
def pySpace (c : Char) : Bool :=
  c == ' ' || c == '\t' || c == '\n' || c == '\r' || c == '\x0b' || c == '\x0c'

/-- `re.sub(r'\s+', '_', s)`: replace each maximal whitespace run by a
single underscore; the boolean records whether the previous character
was whitespace. -/
def collapseWs : Bool → List Char → List Char
  | _, [] => []
  | prevWs, c :: rest =>
    if pySpace c then
      if prevWs then collapseWs true rest
      else '_' :: collapseWs true rest
    else c :: collapseWs false rest

/-- The characters stripped from both ends by `.strip('. ')`. -/
def isDotSpace (c : Char) : Bool := c == '.' || c == ' '

/-- `.strip('. ')`: drop leading and trailing dots and spaces. -/
def stripDotSpace (l : List Char) : List Char :=
  ((l.dropWhile (fun c => isDotSpace c)).reverse.dropWhile (fun c => isDotSpace c)).reverse

/-- `sanitize_filename(title)`: drop invalid filename characters,
collapse whitespace runs to underscores, strip leading/trailing dots and
spaces, then truncate to 200 characters. -/
def sanitize_filename (title : String) : String :=
  let s1 := title.toList.filter (fun c => !invalidChar c)
  let s2 := collapseWs false s1
  let s3 := stripDotSpace s2
  String.mk (s3.take 200)

/-- External collaborators and ambient configuration of one run:
the CLI url, the downloader outcome (audio path, title, audio data — or
a raised error), pydub availability and its `split_on_silence`, whether
the external ffmpeg run succeeds, whisper availability and the ASR
outcome (segments or a raised error). -/
structure Config where
  url : String
  dl : Except String (String × String × AudioData)
  pydub : Bool
  split : AudioData → List ℕ
  ffmpegOk : Bool
  whisper : Bool
  asr : Except String (List SegmentD)

/-- The world state threaded through a run: the filesystem plus call
counters for each stage's side-effecting operation. -/
structure World where
  fs : FS
  dlCount : ℕ
  silenceCount : ℕ
  transcribeCount : ℕ
  summaryCount : ℕ
deriving DecidableEq

/-- `download_video(url, "downloads")`: invoke the downloader; on
success the audio artifact exists on disk (the code verifies this and
raises otherwise) and the `(audio_file, title)` pair is returned. -/
def download_video (cfg : Config) (w : World) :
    Except String (String × String × World) :=
  let w := { w with dlCount := w.dlCount + 1 }
  match cfg.dl with
  | Except.error e => Except.error e
  | Except.ok (audio_file, title, a) =>
      Except.ok (audio_file, title,
        { w with fs := setFS audio_file (FileData.audioD a) w.fs })

/-- `transcribe_audio(audio_file)`: returns `none` (Python `None`) when
whisper is unavailable or when the ASR call raises; otherwise the
segment list. Never raises. -/
def transcribe_audio (cfg : Config) (audio_file : String) (w : World) :
    Option (List SegmentD) × World :=
  let w := { w with transcribeCount := w.transcribeCount + 1 }
  if cfg.whisper then
    match cfg.asr with
    | Except.ok segs => (some segs, w)
    | Except.error _ => (none, w)
  else (none, w)

/-- `remove_silence(audio_file, output_file)`: pydub path (splits on
silence and exports; exports the original audio when no chunks are
found), else the ffmpeg filter, else `shutil.copy2` of the input.
Returns the output path. `Except.error` models an uncaught exception
(pydub decode failure, or copy of a missing input). -/
def remove_silence (cfg : Config) (audio_file output_file : String) (w : World) :
    Except String (String × World) :=
  let w := { w with silenceCount := w.silenceCount + 1 }
  if cfg.pydub then
    match lookupFS audio_file w.fs with
    | some (FileData.audioD audio) =>
        let chunks := cfg.split audio
        if chunks = [] then
          Except.ok (output_file,
            { w with fs := setFS output_file (FileData.audioD audio) w.fs })
        else
          let combined := FileData.audioD (AudioData.concat chunks)
          Except.ok (output_file, { w with fs := setFS output_file combined w.fs })
    | _ => Except.error "CouldntDecodeError"
  else
    let ffOut : Option AudioData :=
      if cfg.ffmpegOk then
        match lookupFS audio_file w.fs with
        | some (FileData.audioD audio) => some (AudioData.ffmpegOut audio)
        | _ => none
      else none
    match ffOut with
    | some out =>
        Except.ok (output_file,
          { w with fs := setFS output_file (FileData.audioD out) w.fs })
    | none =>
        match lookupFS audio_file w.fs with
        | some d =>
            Except.ok (output_file, { w with fs := setFS output_file d w.fs })
        | none => Except.error "FileNotFoundError"

/-- The processed-audio artifact path of a source folder. -/
def processedAudioFile (video_folder safe_title : String) : String :=
  video_folder ++ "/audio/" ++ safe_title ++ "_processed_audio.mp3"

/-- The transcription artifact path of a source folder. -/
def transcriptionFile (video_folder safe_title : String) : String :=
  video_folder ++ "/transcriptions/" ++ safe_title ++ "_transcription.json"

/-- The summary artifact path of a source folder. -/
def summaryFile (video_folder safe_title : String) : String :=
  video_folder ++ "/summaries/" ++ safe_title ++ "_summary.md"

/-- Step 2 of `main`: silence removal with its auto-save check — skip
when the processed-audio artifact exists and the checkpoint flag is set,
otherwise run `remove_silence`, set the flag, and save the checkpoint. -/
def stage_silence (cfg : Config) (video_folder audio_file processed_audio : String)
    (checkpoint : Checkpoint) (w : World) : Except String (Checkpoint × World) :=
  if fsExists processed_audio w.fs && checkpoint.silence_removed.getD false then
    Except.ok (checkpoint, w)
  else
    match remove_silence cfg audio_file processed_audio w with
    | Except.error e => Except.error e
    | Except.ok (_, w) =>
      let checkpoint := { checkpoint with silence_removed := some true }
      Except.ok (checkpoint, { w with fs := save_checkpoint video_folder checkpoint w.fs })

/-- Step 3 of `main`: transcription with its auto-save check — when the
transcription artifact exists and the flag is set, load it (on a parse
failure, re-transcribe); otherwise transcribe. -/
def stage_transcribe (cfg : Config) (processed_audio transcription_file : String)
    (checkpoint : Checkpoint) (w : World) : Option (List SegmentD) × World :=
  if fsExists transcription_file w.fs && checkpoint.transcribed.getD false then
    match lookupFS transcription_file w.fs with
    | some (FileData.segsD s) => (some s, w)
    | _ => transcribe_audio cfg processed_audio w
  else transcribe_audio cfg processed_audio w

/-- The end of `main`: set `completed` and save the checkpoint. -/
def stage_finish (video_folder : String) (checkpoint : Checkpoint) (w : World) : World :=
  let ckDoneRec := { checkpoint with completed := some true }
  { w with fs := save_checkpoint video_folder ckDoneRec w.fs }

/-- Step 4 of `main`: when segments are truthy, persist the
transcription, set `transcribed`, save, then the summary auto-save
check; when segments are `None` or `[]`, skip to completion. -/
def stage_summary (video_folder transcription_file summary_file title : String)
    (segments : Option (List SegmentD)) (checkpoint : Checkpoint) (w : World) :
    Except String World :=
  match segments with
  | some segs =>
    if segs = [] then Except.ok (stage_finish video_folder checkpoint w)
    else
      let w := { w with fs := setFS transcription_file (FileData.segsD segs) w.fs }
      let checkpoint := { checkpoint with transcribed := some true }
      let w := { w with fs := save_checkpoint video_folder checkpoint w.fs }
      if fsExists summary_file w.fs && checkpoint.summary_generated.getD false then
        Except.ok (stage_finish video_folder checkpoint w)
      else
        let w := { w with summaryCount := w.summaryCount + 1 }
        match generate_summary segs title with
        | Except.error e => Except.error e
        | Except.ok summary =>
          let w := { w with fs := setFS summary_file (FileData.textD summary) w.fs }
          let checkpoint := { checkpoint with summary_generated := some true }
          let w := { w with fs := save_checkpoint video_folder checkpoint w.fs }
          Except.ok (stage_finish video_folder checkpoint w)
  | none => Except.ok (stage_finish video_folder checkpoint w)

/-- Steps 2-4 of `main` after the download: load the checkpoint, record
the download, then the three checkpointed stages and completion. -/
def mainSteps (cfg : Config) (audio_file title : String) (w : World) :
    Except String World :=
  let safe_title := sanitize_filename title
  let video_folder := "videos/" ++ safe_title
  let checkpoint := load_checkpoint video_folder w.fs
  let processed_audio := processedAudioFile video_folder safe_title
  let transcription_file := transcriptionFile video_folder safe_title
  let summary_file := summaryFile video_folder safe_title
  let checkpoint := { checkpoint with
    downloaded := some true
    url := some cfg.url
    title := some title }
  let w := { w with fs := save_checkpoint video_folder checkpoint w.fs }
  match stage_silence cfg video_folder audio_file processed_audio checkpoint w with
  | Except.error e => Except.error e
  | Except.ok (checkpoint, w) =>
    match stage_transcribe cfg processed_audio transcription_file checkpoint w with
    | (segments, w) =>
      stage_summary video_folder transcription_file summary_file title
        segments checkpoint w

/-- `main`: download, then the checkpointed stages (named `mainRun`
because Lean reserves `main`). -/
def mainRun (cfg : Config) (w : World) : Except String World :=
  match download_video cfg w with
  | Except.error e => Except.error e
  | Except.ok (audio_file, title, w) => mainSteps cfg audio_file title w

/-- A concrete configuration: downloader succeeds with title `vid`,
pydub present, whisper absent. -/
def cfgC1 : Config :=
  { url := "u", dl := Except.ok ("downloads/vid.mp3", "vid", AudioData.raw 0),
    pydub := true, split := fun _ => [], ffmpegOk := true, whisper := false,
    asr := Except.error "whisper unavailable" }

/-- A checkpoint with every stage marked complete. -/
def ckAllDone : Checkpoint :=
  { url := some "u", title := some "vid", downloaded := some true,
    silence_removed := some true, transcribed := some true,
    summary_generated := some true, completed := some true }

/-- A source folder in its fully-processed state: complete checkpoint
and all four artifacts on disk, with all call counters zero. -/
def wAllDone : World :=
  ⟨[("videos/vid/.checkpoint.json", FileData.ckD ckAllDone),
    ("videos/vid/audio/vid_processed_audio.mp3", FileData.audioD (AudioData.raw 5)),
    ("videos/vid/transcriptions/vid_transcription.json",
      FileData.segsD [⟨some 0, some 10, some "hello"⟩]),
    ("videos/vid/summaries/vid_summary.md", FileData.textD "s"),
    ("downloads/vid.mp3", FileData.audioD (AudioData.raw 0))], 0, 0, 0, 0⟩

/-- The empty world: nothing on disk, all counters zero. -/
def emptyWorld : World := ⟨[], 0, 0, 0, 0⟩

/-- A configuration with neither pydub nor a working ffmpeg. -/
def cfgNoFfmpeg : Config :=
  { url := "u", dl := Except.error "network", pydub := false, split := fun _ => [],
    ffmpegOk := false, whisper := false, asr := Except.error "na" }

-- ===================================================================
-- Theorems
-- ===================================================================

@[simp] theorem lookupFS_setFS_self (p : String) (d : FileData) (fs : FS) :
    lookupFS p (setFS p d fs) = some d := by
  simp [lookupFS, setFS, List.lookup]

theorem lookupFS_setFS_ne {p q : String} (h : p ≠ q) (d : FileData) (fs : FS) :
    lookupFS p (setFS q d fs) = lookupFS p fs := by
  have hb : (p == q) = false := beq_eq_false_iff_ne.mpr h
  simp [lookupFS, setFS, List.lookup, hb]

theorem fsExists_setFS_mono {p : String} {fs : FS} (q : String) (d : FileData)
    (h : fsExists p fs = true) : fsExists p (setFS q d fs) = true := by
  by_cases hpq : p = q
  · subst hpq; simp [fsExists]
  · simpa [fsExists, lookupFS_setFS_ne hpq] using h

/-- C5: Checkpoint round-trip — loading a source folder's checkpoint
immediately after saving checkpoint record `C` there returns `C`, for
every record, folder, and prior filesystem state. -/
theorem checkpoint_roundtrip (c : Checkpoint) (video_folder : String) (fs : FS) :
    load_checkpoint video_folder (save_checkpoint video_folder c fs) = c := by
  simp [load_checkpoint, save_checkpoint]

/-- C8: `load_checkpoint` returns the empty record, not an error, both
when the checkpoint file is absent and when its contents do not parse as
a checkpoint record. -/
theorem load_checkpoint_absent_or_corrupt (video_folder : String) (fs : FS) :
    (lookupFS (checkpointFile video_folder) fs = none →
      load_checkpoint video_folder fs = {}) ∧
    (∀ d : FileData, lookupFS (checkpointFile video_folder) fs = some d →
      (∀ c : Checkpoint, d ≠ FileData.ckD c) →
      load_checkpoint video_folder fs = {}) := by
  constructor
  · intro h; simp [load_checkpoint, h]
  · intro d hd hnot
    unfold load_checkpoint
    rw [hd]
    cases d with
    | ckD c => exact absurd rfl (hnot c)
    | audioD a => rfl
    | segsD s => rfl
    | textD s => rfl
    | corruptD => rfl

/-- Witness for C8 at a concrete folder and filesystem: absent file and
corrupt file both yield the empty record. -/
theorem load_checkpoint_absent_or_corrupt_witness :
    load_checkpoint "videos/v" [] = {} ∧
    load_checkpoint "videos/v" [("videos/v/.checkpoint.json", FileData.corruptD)] = {} := by
  constructor
  · exact (load_checkpoint_absent_or_corrupt "videos/v" []).1 (by decide)
  · exact (load_checkpoint_absent_or_corrupt "videos/v"
      [("videos/v/.checkpoint.json", FileData.corruptD)]).2 FileData.corruptD
      (by decide) (fun c h => by cases h)

/-- C9: on an empty segment list `generate_summary` returns the
placeholder document (title header plus no-transcription notice) and
does not fail. -/
theorem generate_summary_empty (title : String) :
    generate_summary [] title =
      Except.ok ("# Video Summary: " ++ title ++ "\n\nNo transcription available.") := by
  rfl

theorem sumLoopGo_cons_new (s e : ℚ) (t : String) (rest : List SegmentD) (i : ℕ)
    (st : LoopState) (hcond : s - st.current_time > 60 ∨ i = 0)
    (hemit : st.current_highlight_text ≠ [] ∧ 0 < i) :
    sumLoopGo (⟨some s, some e, some t⟩ :: rest) i st =
      sumLoopGo rest (i + 1)
        ⟨e, st.highlight_count + 1, [t], s,
          st.emitted ++ [⟨st.current_highlight_start, st.current_time,
            String.intercalate " " st.current_highlight_text, st.highlight_count⟩]⟩ := by
  simp only [sumLoopGo]
  rw [if_pos hcond, if_pos hemit]

theorem sumLoopGo_cons_first (s e : ℚ) (t : String) (rest : List SegmentD) (i : ℕ)
    (st : LoopState) (hcond : s - st.current_time > 60 ∨ i = 0)
    (hnoemit : ¬(st.current_highlight_text ≠ [] ∧ 0 < i)) :
    sumLoopGo (⟨some s, some e, some t⟩ :: rest) i st =
      sumLoopGo rest (i + 1)
        ⟨e, st.highlight_count, [t], s, st.emitted⟩ := by
  simp only [sumLoopGo]
  rw [if_pos hcond, if_neg hnoemit]

theorem sumLoopGo_cons_absorb (s e : ℚ) (t : String) (rest : List SegmentD) (i : ℕ)
    (st : LoopState) (hcond : ¬(s - st.current_time > 60 ∨ i = 0)) :
    sumLoopGo (⟨some s, some e, some t⟩ :: rest) i st =
      sumLoopGo rest (i + 1)
        ⟨e, st.highlight_count, st.current_highlight_text ++ [t],
          st.current_highlight_start, st.emitted⟩ := by
  simp only [sumLoopGo]
  rw [if_neg hcond]

theorem lastEndOr_cons (d : ℚ) (x : ℚ × ℚ × String) (l : List (ℚ × ℚ × String)) :
    lastEndOr d (x :: l) = lastEndOr x.2.1 l := by
  cases l with
  | nil => simp [lastEndOr]
  | cons y ys =>
    obtain ⟨z, hz⟩ : ∃ z, (y :: ys).getLast? = some z :=
      Option.isSome_iff_exists.mp (by simp [List.getLast?_isSome])
    simp [lastEndOr, List.getLast?_cons_cons, hz]

theorem sumLoopGo_spec (l : List (ℚ × ℚ × String)) :
    ∀ (i : ℕ) (st : LoopState), 1 ≤ i → st.current_highlight_text ≠ [] →
    ∃ st', sumLoopGo (l.map mkSeg) i st = Except.ok st' ∧
      st'.current_highlight_text ≠ [] ∧
      st'.current_time = lastEndOr st.current_time l ∧
      st'.emitted.map stripLabel ++
          [⟨st'.current_highlight_start, st'.current_time,
            String.intercalate " " st'.current_highlight_text⟩] =
        st.emitted.map stripLabel ++
          specGroupGo st.current_highlight_start st.current_time
            st.current_highlight_text l := by
  induction l with
  | nil =>
    intro i st hi hne
    exact ⟨st, rfl, hne, by simp [lastEndOr], by simp [specGroupGo]⟩
  | cons x rest ih =>
    intro i st hi hne
    obtain ⟨s, e, t⟩ := x
    by_cases hgap : s - st.current_time > 60
    · obtain ⟨st', h1, h2, h3, h4⟩ := ih (i + 1)
        ⟨e, st.highlight_count + 1, [t], s,
          st.emitted ++ [⟨st.current_highlight_start, st.current_time,
            String.intercalate " " st.current_highlight_text, st.highlight_count⟩]⟩
        (by omega) (by simp)
      refine ⟨st', ?_, h2, ?_, ?_⟩
      · rw [List.map_cons]
        simp only [mkSeg]
        rw [sumLoopGo_cons_new s e t _ i st (Or.inl hgap) ⟨hne, by omega⟩]
        exact h1
      · rw [lastEndOr_cons]
        exact h3
      · rw [h4]
        simp [specGroupGo, if_pos hgap, stripLabel, List.append_assoc]
    · obtain ⟨st', h1, h2, h3, h4⟩ := ih (i + 1)
        ⟨e, st.highlight_count, st.current_highlight_text ++ [t],
          st.current_highlight_start, st.emitted⟩
        (by omega) (by simp)
      have hcond : ¬(s - st.current_time > 60 ∨ i = 0) := by
        rintro (h | h)
        · exact hgap h
        · omega
      refine ⟨st', ?_, h2, ?_, ?_⟩
      · rw [List.map_cons]
        simp only [mkSeg]
        rw [sumLoopGo_cons_absorb s e t _ i st hcond]
        exact h1
      · rw [lastEndOr_cons]
        exact h3
      · rw [h4]
        simp [specGroupGo, if_neg hgap]

theorem highlightsOf_assemble (segments : List SegmentD) (st' : LoopState)
    (lseg : SegmentD) (E : ℚ)
    (h1 : sumLoopGo segments 0 ⟨0, 0, [], 0, []⟩ = Except.ok st')
    (h2 : st'.current_highlight_text ≠ [])
    (hl : segments.getLast? = some lseg) (hE : lseg.«end» = some E) :
    highlightsOf segments = Except.ok (st'.emitted ++
      [⟨st'.current_highlight_start, E,
        String.intercalate " " st'.current_highlight_text, st'.highlight_count + 1⟩]) := by
  unfold highlightsOf
  rw [h1]
  dsimp only
  rw [if_neg h2, hl]
  dsimp only
  rw [hE]

theorem highlightsOf_refines (x : ℚ × ℚ × String) (xs : List (ℚ × ℚ × String)) :
    (highlightsOf ((x :: xs).map mkSeg)).map (List.map stripLabel) =
      Except.ok (specGroup x xs) := by
  obtain ⟨s, e, t⟩ := x
  have hstep : sumLoopGo (((s, e, t) :: xs).map mkSeg) 0 ⟨0, 0, [], 0, []⟩ =
      sumLoopGo (xs.map mkSeg) 1 ⟨e, 0, [t], s, []⟩ := by
    rw [List.map_cons]
    simp only [mkSeg]
    exact sumLoopGo_cons_first s e t _ 0 ⟨0, 0, [], 0, []⟩ (Or.inr rfl) (by simp)
  obtain ⟨st', h1, h2, h3, h4⟩ := sumLoopGo_spec xs 1 ⟨e, 0, [t], s, []⟩ (le_refl 1) (by simp)
  have h1' : sumLoopGo (((s, e, t) :: xs).map mkSeg) 0 ⟨0, 0, [], 0, []⟩ = Except.ok st' := by
    rw [hstep]; exact h1
  have hE : st'.current_time = lastEndOr e xs := h3
  have hlast : (((s, e, t) :: xs).map mkSeg).getLast? =
      some (mkSeg (((s, e, t) :: xs).getLast?.getD (s, e, t))) := by
    rw [List.getLast?_map]
    cases hxs : ((s, e, t) :: xs).getLast? with
    | none => simp at hxs
    | some y => rfl
  have hEval : (mkSeg (((s, e, t) :: xs).getLast?.getD (s, e, t))).«end» =
      some (lastEndOr e xs) := by
    cases hxs : xs.getLast? with
    | none =>
      have : xs = [] := List.getLast?_eq_none_iff.mp hxs
      subst this
      simp [mkSeg, lastEndOr]
    | some y =>
      have hlast2 : ((s, e, t) :: xs).getLast? = some y := by
        cases xs with
        | nil => cases hxs
        | cons z zs => rw [List.getLast?_cons_cons]; exact hxs
      simp [hlast2, mkSeg, lastEndOr, hxs]
  have := highlightsOf_assemble _ st' _ (lastEndOr e xs) h1' h2 hlast hEval
  rw [this]
  simp only [Except.map, List.map_append, List.map_cons, List.map_nil, stripLabel]
  rw [← hE]
  simpa [specGroup] using h4

/-- C3 (code bug): the emitted highlight numbers are not sequential from
1. At a two-highlight input the loop-emitted highlight is numbered with
the pre-increment counter `0` and the final one with `count + 1 = 2`,
skipping `1`; only a lone final highlight gets number `1`. -/
theorem highlight_numbering_off_by_one :
    highlightsOf [⟨some 0, some 10, some "a"⟩, ⟨some 90, some 95, some "c"⟩] =
      Except.ok [⟨0, 10, "a", 0⟩, ⟨90, 95, "c", 2⟩] ∧
    (highlightsOf [⟨some 0, some 10, some "a"⟩, ⟨some 90, some 95, some "c"⟩]).map
        (List.map Highlight.label) = Except.ok [0, 2] ∧
    highlightsOf [⟨some 0, some 10, some "a"⟩] = Except.ok [⟨0, 10, "a", 1⟩] := by
  refine ⟨?_, ?_, ?_⟩
  · norm_num [highlightsOf, sumLoopGo, String.intercalate]
    decide
  · norm_num [highlightsOf, sumLoopGo, String.intercalate]
    decide
  · norm_num [highlightsOf, sumLoopGo, String.intercalate]
    decide

/-- C4: highlight grouping. On the three-segment example the code yields
exactly two highlights, the first spanning [0, 20] with text "a b", the
second spanning [90, 95] with text "c"; the spec-level grouping rule
(new window exactly when a segment's start minus the last absorbed end
exceeds 60; the open window is emitted after the loop) yields the same,
and in general the code's grouping refines the spec's rule on every
well-formed non-empty segment list. -/
theorem highlight_grouping_correct :
    highlightsOf [⟨some 0, some 10, some "a"⟩, ⟨some 15, some 20, some "b"⟩,
        ⟨some 90, some 95, some "c"⟩] =
      Except.ok [⟨0, 20, "a b", 0⟩, ⟨90, 95, "c", 2⟩] ∧
    specGroup (0, 10, "a") [(15, 20, "b"), (90, 95, "c")] =
      [⟨0, 20, "a b"⟩, ⟨90, 95, "c"⟩] ∧
    ∀ (x : ℚ × ℚ × String) (xs : List (ℚ × ℚ × String)),
      (highlightsOf ((x :: xs).map mkSeg)).map (List.map stripLabel) =
        Except.ok (specGroup x xs) := by
  refine ⟨?_, ?_, highlightsOf_refines⟩
  · norm_num [highlightsOf, sumLoopGo, String.intercalate]
    decide
  · norm_num [specGroup, specGroupGo, String.intercalate]
    decide

/-- C7 counterexample: a malformed non-empty segment list on which
`generate_summary` raises a `KeyError` instead of returning a
placeholder document: the single segment has an `end` key but no
`start` key. -/
theorem generate_summary_raises_on_missing_start :
    generate_summary [⟨none, some 10, none⟩] "t" = Except.error "KeyError" := by
  decide

/-- C7 amended: `generate_summary` degrades to the minimal
"Invalid transcription data" placeholder exactly for the handled
malformation — a missing `end` key on the last segment; it does not
abort in that case. -/
theorem generate_summary_missing_end_placeholder
    (segs : List SegmentD) (title : String) (lseg : SegmentD)
    (hne : segs ≠ []) (hl : segs.getLast? = some lseg) (hE : lseg.«end» = none) :
    generate_summary segs title =
      Except.ok ("# Video Summary: " ++ title ++ "\n\nInvalid transcription data.") := by
  have hempty : segs.isEmpty = false := by
    cases segs with
    | nil => exact absurd rfl hne
    | cons a l => rfl
  unfold generate_summary
  rw [hempty]
  dsimp only
  rw [hl]
  dsimp only
  rw [hE]
  simp

/-- Witness for the amended C7 at a concrete malformed list. -/
theorem generate_summary_missing_end_placeholder_witness :
    generate_summary [⟨some 0, none, some "a"⟩] "t" =
      Except.ok ("# Video Summary: " ++ "t" ++ "\n\nInvalid transcription data.") :=
  generate_summary_missing_end_placeholder [⟨some 0, none, some "a"⟩] "t"
    ⟨some 0, none, some "a"⟩ (by decide) (by decide) (by decide)

theorem mem_collapseWs {c : Char} :
    ∀ (b : Bool) (l : List Char), c ∈ collapseWs b l →
      c = '_' ∨ (c ∈ l ∧ pySpace c = false) := by
  intro b l
  induction l generalizing b with
  | nil => intro h; cases h
  | cons x rest ih =>
    intro h
    by_cases hx : pySpace x = true
    · cases b with
      | true =>
        simp only [collapseWs, hx, if_pos] at h
        rcases ih true h with h1 | ⟨h2, h3⟩
        · exact Or.inl h1
        · exact Or.inr ⟨List.mem_cons_of_mem x h2, h3⟩
      | false =>
        simp only [collapseWs, hx, if_pos] at h
        rcases List.mem_cons.mp h with h1 | h1
        · exact Or.inl h1
        · rcases ih true h1 with h2 | ⟨h3, h4⟩
          · exact Or.inl h2
          · exact Or.inr ⟨List.mem_cons_of_mem x h3, h4⟩
    · have hx' : pySpace x = false := by
        cases hpx : pySpace x
        · rfl
        · exact absurd hpx hx
      simp only [collapseWs, hx', Bool.false_eq_true, if_neg, if_false] at h
      rcases List.mem_cons.mp h with h1 | h1
      · subst h1; exact Or.inr ⟨List.mem_cons_self c rest, hx'⟩
      · rcases ih false h1 with h2 | ⟨h3, h4⟩
        · exact Or.inl h2
        · exact Or.inr ⟨List.mem_cons_of_mem x h3, h4⟩

theorem getLast?_dropWhile_of_ne_nil (p : Char → Bool) :
    ∀ (m : List Char), m.dropWhile p ≠ [] → (m.dropWhile p).getLast? = m.getLast? := by
  intro m
  induction m with
  | nil => intro h; exact absurd rfl h
  | cons x xs ih =>
    intro h
    by_cases hx : p x = true
    · rw [List.dropWhile_cons_of_pos hx] at h ⊢
      have hxs : xs ≠ [] := by
        intro hc; subst hc; simp [List.dropWhile] at h
      cases xs with
      | nil => exact absurd rfl hxs
      | cons y ys => rw [List.getLast?_cons_cons]; exact ih h
    · have hx' : p x = false := by
        cases hpx : p x
        · rfl
        · exact absurd hpx hx
      rw [List.dropWhile_cons_of_neg (by simp [hx'])]

theorem sanitize_no_banned_aux {c : Char}
    (h : c ∈ (['<', '>', ':', '"', '/', '\\', '|', '?', '*'] : List Char)) :
    invalidChar c = true := by
  fin_cases h <;> rfl

/-- C10 amended: for every title, `sanitize_filename` returns at most
200 characters, none of which is an invalid filename character or
whitespace; the first character is never a dot or space; and whenever
the stripped string already fits in the 200-character limit, the last
character is not a dot or space either. (The truncation to 200
characters happens after the strip, so a long title can end in a dot.) -/
theorem sanitize_filename_props (title : String) :
    (sanitize_filename title).length ≤ 200 ∧
    (∀ c ∈ (sanitize_filename title).toList,
      c ∉ (['<', '>', ':', '"', '/', '\\', '|', '?', '*'] : List Char) ∧ pySpace c = false) ∧
    (∀ c ∈ (sanitize_filename title).toList.head?, isDotSpace c = false) ∧
    ((stripDotSpace (collapseWs false
        (title.toList.filter (fun c => !invalidChar c)))).length ≤ 200 →
      ∀ c ∈ (sanitize_filename title).toList.getLast?, isDotSpace c = false) := by
  set s1 := title.toList.filter (fun c => !invalidChar c) with hs1
  set s2 := collapseWs false s1 with hs2
  set s3 := stripDotSpace s2 with hs3
  have htl : (sanitize_filename title).toList = s3.take 200 := rfl
  refine ⟨?_, ?_, ?_, ?_⟩
  · show (String.mk (s3.take 200)).length ≤ 200
    rw [String.length_mk, List.length_take]
    omega
  · intro c hc
    rw [htl] at hc
    have hc3 : c ∈ s3 := List.mem_of_mem_take hc
    have hc2 : c ∈ s2 := by
      have h1 := (List.dropWhile_sublist (fun c => isDotSpace c)).subset
        (List.mem_reverse.mp hc3)
      exact (List.dropWhile_sublist (fun c => isDotSpace c)).subset
        (List.mem_reverse.mp h1)
    rcases mem_collapseWs false s1 hc2 with h | ⟨h1, h2⟩
    · subst h; exact ⟨by decide, by decide⟩
    · have hinv : invalidChar c = false := by
        have := (List.mem_filter.mp h1).2
        simpa using this
      refine ⟨?_, h2⟩
      intro hmem
      rw [sanitize_no_banned_aux hmem] at hinv
      cases hinv
  · intro c hc
    rw [htl] at hc
    have h3 : s3.head? = some c := by
      cases h : s3 with
      | nil => rw [h] at hc; cases hc
      | cons a l =>
        rw [h] at hc
        simp only [List.take_succ_cons, List.head?_cons, Option.mem_def,
          Option.some.injEq] at hc
        rw [List.head?_cons, hc]
    -- s3 = X.reverse with X := dropWhile isDotSpace ((dropWhile isDotSpace s2).reverse)
    have hX : s3 = ((s2.dropWhile (fun c => isDotSpace c)).reverse.dropWhile
        (fun c => isDotSpace c)).reverse := rfl
    set X := (s2.dropWhile (fun c => isDotSpace c)).reverse.dropWhile
        (fun c => isDotSpace c) with hXdef
    have hXne : X ≠ [] := by
      intro hnil
      rw [hX, hnil] at h3
      cases h3
    have hlastX : X.getLast? = some c := by
      rw [hX] at h3
      rw [← List.head?_reverse]
      exact h3
    have hrevlast : (s2.dropWhile (fun c => isDotSpace c)).reverse.getLast? = some c := by
      rw [← getLast?_dropWhile_of_ne_nil (fun c => isDotSpace c) _ hXne]
      exact hlastX
    have hhead : (s2.dropWhile (fun c => isDotSpace c)).head? = some c := by
      rw [← List.getLast?_reverse]
      exact hrevlast
    have := List.head?_dropWhile_not (fun c => isDotSpace c) s2
    rw [hhead] at this
    exact this
  · intro hlen c hc
    rw [htl] at hc
    rw [List.take_of_length_le hlen] at hc
    have hX : s3 = ((s2.dropWhile (fun c => isDotSpace c)).reverse.dropWhile
        (fun c => isDotSpace c)).reverse := rfl
    have hc' : ((s2.dropWhile (fun c => isDotSpace c)).reverse.dropWhile
        (fun c => isDotSpace c)).head? = some c := by
      rw [← List.getLast?_reverse, ← hX]
      exact hc
    have := List.head?_dropWhile_not (fun c => isDotSpace c)
      (s2.dropWhile (fun c => isDotSpace c)).reverse
    rw [hc'] at this
    exact this


/-- Witness for the amended C10 at a concrete title: `"a b.txt"`
sanitizes to `"a_b.txt"`, whose last character `t` is not a dot or
space. -/
theorem sanitize_filename_props_witness : isDotSpace 't' = false :=
  (sanitize_filename_props "a b.txt").2.2.2 (by decide) 't' (by decide)

set_option maxRecDepth 10000 in
/-- C10 counterexample: the 210-character title of 199 `a`s, a dot, and
ten `b`s sanitizes to a 200-character name ending in a dot, because the
truncation to 200 characters is applied after `.strip('. ')`. -/
theorem sanitize_filename_trailing_dot :
    (sanitize_filename (String.mk (List.replicate 199 'a' ++
        '.' :: List.replicate 10 'b'))).toList.getLast? = some '.' ∧
    sanitize_filename (String.mk (List.replicate 199 'a' ++ '.' :: List.replicate 10 'b')) =
      String.mk (List.replicate 199 'a' ++ ['.']) := by
  constructor
  · decide
  · decide

theorem getD_false_eq_true {o : Option Bool} (h : o.getD false = true) :
    o = some true := by
  cases o with
  | none => cases h
  | some b => cases b with
    | false => cases h
    | true => rfl

theorem remove_silence_ok (cfg : Config) (audio_file output_file : String) (w : World)
    (a : AudioData) (h : lookupFS audio_file w.fs = some (FileData.audioD a)) :
    ∃ d : FileData, remove_silence cfg audio_file output_file w =
      Except.ok (output_file,
        ⟨setFS output_file d w.fs, w.dlCount, w.silenceCount + 1,
          w.transcribeCount, w.summaryCount⟩) := by
  cases hpy : cfg.pydub with
  | true =>
    by_cases hc : cfg.split a = []
    · refine ⟨FileData.audioD a, ?_⟩
      simp only [remove_silence, hpy, if_true, h, hc, if_pos]
    · refine ⟨FileData.audioD (AudioData.concat (cfg.split a)), ?_⟩
      simp only [remove_silence, hpy, if_true, h]
      rw [if_neg hc]
  | false =>
    cases hff : cfg.ffmpegOk with
    | true =>
      refine ⟨FileData.audioD (AudioData.ffmpegOut a), ?_⟩
      simp only [remove_silence, hpy, hff, h, Bool.false_eq_true, if_false, if_true]
    | false =>
      refine ⟨FileData.audioD a, ?_⟩
      simp only [remove_silence, hpy, hff, h, Bool.false_eq_true, if_false]

theorem stage_silence_skip (cfg : Config) (vf af pa : String) (ck : Checkpoint)
    (w : World) (h1 : fsExists pa w.fs = true) (h2 : ck.silence_removed = some true) :
    stage_silence cfg vf af pa ck w = Except.ok (ck, w) := by
  simp only [stage_silence, h1, h2, Option.getD_some, Bool.and_self, if_true]

theorem stage_silence_spec (cfg : Config) (vf af pa : String) (ck ck' : Checkpoint)
    (w w' : World) (h : stage_silence cfg vf af pa ck w = Except.ok (ck', w')) :
    ck'.silence_removed = some true ∧ ck'.transcribed = ck.transcribed ∧
    ck'.summary_generated = ck.summary_generated ∧ ck'.downloaded = ck.downloaded ∧
    ck'.url = ck.url ∧ ck'.title = ck.title ∧ ck'.completed = ck.completed := by
  unfold stage_silence at h
  split at h
  · rename_i hcond
    rw [Bool.and_eq_true] at hcond
    have hflag := getD_false_eq_true hcond.2
    injection h with h
    injection h with h1 h2
    subst h1
    exact ⟨hflag, rfl, rfl, rfl, rfl, rfl, rfl⟩
  · split at h
    · exact Except.noConfusion h
    · injection h with h
      injection h with h1 h2
      subst h1
      exact ⟨rfl, rfl, rfl, rfl, rfl, rfl, rfl⟩

theorem stage_silence_run (cfg : Config) (vf af pa : String) (ck : Checkpoint)
    (w : World)
    (hcond : (fsExists pa w.fs && ck.silence_removed.getD false) = false)
    (a : AudioData) (hin : lookupFS af w.fs = some (FileData.audioD a)) :
    ∃ d : FileData, stage_silence cfg vf af pa ck w =
      Except.ok ({ ck with silence_removed := some true },
        ⟨save_checkpoint vf { ck with silence_removed := some true }
            (setFS pa d w.fs),
          w.dlCount, w.silenceCount + 1, w.transcribeCount, w.summaryCount⟩) := by
  obtain ⟨d, hd⟩ := remove_silence_ok cfg af pa w a hin
  refine ⟨d, ?_⟩
  simp only [stage_silence, hcond, Bool.false_eq_true, if_false, hd]

theorem stage_transcribe_load (cfg : Config) (pa tf : String) (ck : Checkpoint)
    (w : World) (s : List SegmentD)
    (hex : fsExists tf w.fs = true) (hflag : ck.transcribed = some true)
    (hlook : lookupFS tf w.fs = some (FileData.segsD s)) :
    stage_transcribe cfg pa tf ck w = (some s, w) := by
  simp only [stage_transcribe, hex, hflag, Option.getD_some, Bool.and_self, if_true, hlook]

theorem stage_transcribe_run (cfg : Config) (pa tf : String) (ck : Checkpoint)
    (w : World)
    (hcond : (fsExists tf w.fs && ck.transcribed.getD false) = false) :
    stage_transcribe cfg pa tf ck w = transcribe_audio cfg pa w := by
  simp only [stage_transcribe, hcond, Bool.false_eq_true, if_false]

theorem transcribe_audio_fails (cfg : Config) (pa : String) (w : World)
    (h : cfg.whisper = false ∨ ∃ e, cfg.asr = Except.error e) :
    transcribe_audio cfg pa w =
      (none, ⟨w.fs, w.dlCount, w.silenceCount, w.transcribeCount + 1,
        w.summaryCount⟩) := by
  rcases h with h | ⟨e, h⟩
  · simp [transcribe_audio, h]
  · cases hw : cfg.whisper
    · simp [transcribe_audio, hw]
    · simp [transcribe_audio, hw, h]

theorem stage_summary_none (vf tf sf title : String) (ck : Checkpoint) (w : World) :
    stage_summary vf tf sf title none ck w = Except.ok (stage_finish vf ck w) := rfl

theorem stage_summary_skip (vf tf sf title : String) (segs : List SegmentD)
    (ck : Checkpoint) (w : World) (hne : segs ≠ [])
    (hex : fsExists sf (save_checkpoint vf { ck with transcribed := some true }
      (setFS tf (FileData.segsD segs) w.fs)) = true)
    (hflag : ck.summary_generated = some true) :
    stage_summary vf tf sf title (some segs) ck w =
      Except.ok (stage_finish vf { ck with transcribed := some true }
        ⟨save_checkpoint vf { ck with transcribed := some true }
            (setFS tf (FileData.segsD segs) w.fs),
          w.dlCount, w.silenceCount, w.transcribeCount, w.summaryCount⟩) := by
  have hc : (fsExists sf (save_checkpoint vf { ck with transcribed := some true }
      (setFS tf (FileData.segsD segs) w.fs)) &&
      Option.getD ({ ck with transcribed := some true } : Checkpoint).summary_generated
        false) = true := by
    rw [hex, Bool.true_and]
    rw [show ({ ck with transcribed := some true } : Checkpoint).summary_generated =
      some true from hflag]
    rfl
  simp only [stage_summary, if_neg hne]
  rw [if_pos hc]

theorem stage_summary_spec (vf tf sf title : String) (segments : Option (List SegmentD))
    (ck : Checkpoint) (w w' : World)
    (h : stage_summary vf tf sf title segments ck w = Except.ok w') :
    ∃ ck2 : Checkpoint,
      lookupFS (checkpointFile vf) w'.fs = some (FileData.ckD ck2) ∧
      ck2.completed = some true ∧ ck2.silence_removed = ck.silence_removed ∧
      ck2.downloaded = ck.downloaded := by
  unfold stage_summary at h
  split at h
  · rename_i segs
    split at h
    · injection h with h
      subst h
      exact ⟨{ ck with completed := some true },
        by simp [stage_finish, save_checkpoint], rfl, rfl, rfl⟩
    · dsimp only at h
      split at h
      · injection h with h
        subst h
        refine ⟨{ ck with
          transcribed := some true
          completed := some true }, ?_, rfl, rfl, rfl⟩
        simp [stage_finish, save_checkpoint]
      · split at h
        · exact Except.noConfusion h
        · injection h with h
          subst h
          refine ⟨{ ck with
            transcribed := some true
            summary_generated := some true
            completed := some true }, ?_, rfl, rfl, rfl⟩
          simp [stage_finish, save_checkpoint]
  · injection h with h
    subst h
    exact ⟨{ ck with completed := some true },
      by simp [stage_finish, save_checkpoint], rfl, rfl, rfl⟩

theorem append_left_ne (p : String) {b c : String} (h : b.data ≠ c.data) :
    p ++ b ≠ p ++ c := by
  intro he
  apply h
  have hd := congrArg String.data he
  rw [String.data_append, String.data_append] at hd
  exact List.append_cancel_left hd

theorem checkpointFile_ne_transcriptionFile (vf st : String) :
    checkpointFile vf ≠ transcriptionFile vf st := by
  unfold checkpointFile transcriptionFile
  rw [String.append_assoc, String.append_assoc]
  apply append_left_ne
  intro h
  rw [show "/.checkpoint.json".data = '/' :: '.' :: "checkpoint.json".data from rfl] at h
  rw [show ("/transcriptions/" ++ (st ++ "_transcription.json")).data =
    '/' :: 't' :: ("ranscriptions/" ++ (st ++ "_transcription.json")).data from rfl] at h
  injection h with h1 h2
  injection h2 with h3 h4
  exact absurd h3 (by decide)

theorem getLast?_map_cons (x : ℚ × ℚ × String) (xs : List (ℚ × ℚ × String)) :
    ((x :: xs).map mkSeg).getLast? = some (mkSeg ((x :: xs).getLast?.getD x)) := by
  rw [List.getLast?_map]
  cases hxs : (x :: xs).getLast? with
  | none => simp at hxs
  | some y => rfl

theorem renderTranscriptLines_wf (l : List (ℚ × ℚ × String)) :
    ∃ r, renderTranscriptLines (l.map mkSeg) = Except.ok r := by
  induction l with
  | nil => exact ⟨"", rfl⟩
  | cons x rest ih =>
    obtain ⟨r, hr⟩ := ih
    refine ⟨"**[" ++ pad2 ⌊x.1 / 60⌋ ++ ":" ++ pad2 (pyint (pymod x.1 60)) ++ "]** " ++
      x.2.2 ++ "\n\n" ++ r, ?_⟩
    obtain ⟨s, e, t⟩ := x
    simp only [List.map_cons, renderTranscriptLines, mkSeg, hr]

theorem generate_summary_wf_ok (x : ℚ × ℚ × String) (xs : List (ℚ × ℚ × String))
    (title : String) :
    ∃ s, generate_summary ((x :: xs).map mkSeg) title = Except.ok s := by
  have hhl : ∃ hs, highlightsOf ((x :: xs).map mkSeg) = Except.ok hs := by
    have h := highlightsOf_refines x xs
    cases hh : highlightsOf ((x :: xs).map mkSeg) with
    | error e => rw [hh] at h; exact Except.noConfusion h
    | ok hs => exact ⟨hs, rfl⟩
  obtain ⟨hs, hhs⟩ := hhl
  obtain ⟨tr, htr⟩ := renderTranscriptLines_wf (x :: xs)
  unfold generate_summary
  rw [show ((x :: xs).map mkSeg).isEmpty = false from rfl]
  rw [getLast?_map_cons]
  dsimp only [mkSeg]
  rw [hhs, htr]
  simp only [Bool.false_eq_true, if_false]
  exact ⟨_, rfl⟩

theorem getD_false_of_ne_some_true {o : Option Bool} (h : o ≠ some true) :
    o.getD false = false := by
  cases o with
  | none => rfl
  | some b => cases b with
    | false => rfl
    | true => exact absurd rfl h

theorem stage_silence_skip_cond (cfg : Config) (vf af pa : String) (ck : Checkpoint)
    (w : World)
    (hcond : (fsExists pa w.fs && ck.silence_removed.getD false) = true) :
    stage_silence cfg vf af pa ck w = Except.ok (ck, w) := by
  simp only [stage_silence, hcond, if_true]

/-- C2: when whisper is unavailable or the ASR call raises,
`transcribe_audio` returns `None` instead of propagating; the run then
skips summary generation (the summary path is never written and the
summary counter does not move), leaves the `transcribed` flag exactly as
it was loaded (so never sets it to true), and still finishes with
`completed = true` in the saved checkpoint. -/
theorem transcription_failure_degrades (cfg : Config) (w : World)
    (af title : String) (a : AudioData)
    (hdl : cfg.dl = Except.ok (af, title, a))
    (hfail : cfg.whisper = false ∨ ∃ e, cfg.asr = Except.error e)
    (haf : af ≠ checkpointFile ("videos/" ++ sanitize_filename title))
    (hck : (load_checkpoint ("videos/" ++ sanitize_filename title) w.fs).transcribed ≠
      some true) :
    (∀ (path : String) (w0 : World), (transcribe_audio cfg path w0).1 = none) ∧
    ∃ w', mainRun cfg w = Except.ok w' ∧
      w'.summaryCount = w.summaryCount ∧
      (∃ cf : Checkpoint,
        lookupFS (checkpointFile ("videos/" ++ sanitize_filename title)) w'.fs =
          some (FileData.ckD cf) ∧
        cf.transcribed =
          (load_checkpoint ("videos/" ++ sanitize_filename title) w.fs).transcribed ∧
        cf.completed = some true) ∧
      (∀ p : String, p ≠ af →
        p ≠ checkpointFile ("videos/" ++ sanitize_filename title) →
        p ≠ processedAudioFile ("videos/" ++ sanitize_filename title)
          (sanitize_filename title) →
        lookupFS p w'.fs = lookupFS p w.fs) := by
  constructor
  · intro path w0
    rw [transcribe_audio_fails cfg path w0 hfail]
  · set st := sanitize_filename title with hst
    set vf := "videos/" ++ st with hvf
    set pa := processedAudioFile vf st with hpa
    set tf := transcriptionFile vf st with htf
    set sf := summaryFile vf st with hsf
    unfold mainRun download_video
    rw [hdl]
    dsimp only
    unfold mainSteps
    dsimp only
    rw [← hst, ← hvf, ← hpa, ← htf, ← hsf]
    set fs2 : FS := setFS af (FileData.audioD a) w.fs with hfs2
    have hload : load_checkpoint vf fs2 = load_checkpoint vf w.fs := by
      unfold load_checkpoint
      rw [hfs2, lookupFS_setFS_ne (Ne.symm haf)]
    rw [hload]
    set ck0 := load_checkpoint vf w.fs with hck0
    set ck1 : Checkpoint := { ck0 with
      downloaded := some true
      url := some cfg.url
      title := some title } with hck1
    set w3 : World := ⟨save_checkpoint vf ck1 fs2, w.dlCount + 1, w.silenceCount,
      w.transcribeCount, w.summaryCount⟩ with hw3
    have hcktr : ck1.transcribed = ck0.transcribed := rfl
    cases hsil : (fsExists pa w3.fs && ck1.silence_removed.getD false) with
    | true =>
      rw [stage_silence_skip_cond cfg vf af pa ck1 w3 hsil]
      dsimp only
      have htrc : (fsExists tf w3.fs && ck1.transcribed.getD false) = false := by
        rw [hcktr, getD_false_of_ne_some_true hck]
        exact Bool.and_false _
      rw [stage_transcribe_run cfg pa tf ck1 w3 htrc,
        transcribe_audio_fails cfg pa w3 hfail]
      dsimp only
      rw [stage_summary_none]
      refine ⟨_, rfl, rfl, ⟨{ ck1 with completed := some true }, ?_, rfl, rfl⟩, ?_⟩
      · simp [stage_finish, save_checkpoint]
      · intro p hp1 hp2 _hp3
        simp only [stage_finish, save_checkpoint, hw3, hfs2]
        rw [lookupFS_setFS_ne hp2, lookupFS_setFS_ne hp2, lookupFS_setFS_ne hp1]
    | false =>
      have hin : lookupFS af w3.fs = some (FileData.audioD a) := by
        show lookupFS af (setFS (checkpointFile vf) (FileData.ckD ck1) fs2) = _
        rw [lookupFS_setFS_ne haf, hfs2, lookupFS_setFS_self]
      obtain ⟨d, hd⟩ := stage_silence_run cfg vf af pa ck1 w3 hsil a hin
      rw [hd]
      dsimp only
      have htrc : (fsExists tf (save_checkpoint vf { ck1 with silence_removed := some true }
          (setFS pa d w3.fs)) &&
          ({ ck1 with silence_removed := some true } : Checkpoint).transcribed.getD
            false) = false := by
        rw [show ({ ck1 with silence_removed := some true } : Checkpoint).transcribed =
          ck0.transcribed from rfl, getD_false_of_ne_some_true hck]
        exact Bool.and_false _
      rw [stage_transcribe_run cfg pa tf _ _ htrc,
        transcribe_audio_fails cfg pa _ hfail]
      dsimp only
      rw [stage_summary_none]
      refine ⟨_, rfl, rfl,
        ⟨{ ck1 with silence_removed := some true, completed := some true }, ?_, rfl, rfl⟩,
        ?_⟩
      · simp [stage_finish, save_checkpoint]
      · intro p hp1 hp2 hp3
        simp only [stage_finish, save_checkpoint, hw3, hfs2]
        rw [lookupFS_setFS_ne hp2, lookupFS_setFS_ne hp2, lookupFS_setFS_ne hp3,
          lookupFS_setFS_ne hp2, lookupFS_setFS_ne hp1]

theorem stage_summary_run (vf tf sf title : String) (segs : List SegmentD)
    (ck : Checkpoint) (w : World) (hne : segs ≠ [])
    (hcond : (fsExists sf (save_checkpoint vf { ck with transcribed := some true }
      (setFS tf (FileData.segsD segs) w.fs)) &&
      Option.getD ({ ck with transcribed := some true } : Checkpoint).summary_generated
        false) = false)
    (s : String) (hgs : generate_summary segs title = Except.ok s) :
    stage_summary vf tf sf title (some segs) ck w =
      Except.ok (stage_finish vf
        { ck with transcribed := some true, summary_generated := some true }
        ⟨save_checkpoint vf
            { ck with transcribed := some true, summary_generated := some true }
            (setFS sf (FileData.textD s)
              (save_checkpoint vf { ck with transcribed := some true }
                (setFS tf (FileData.segsD segs) w.fs))),
          w.dlCount, w.silenceCount, w.transcribeCount, w.summaryCount + 1⟩) := by
  simp only [stage_summary, if_neg hne]
  rw [if_neg (by simp [hcond])]
  rw [hgs]

theorem resume_skip (cfg : Config) (w : World) (af title : String) (a : AudioData)
    (c : Checkpoint) (segs : List SegmentD)
    (hdl : cfg.dl = Except.ok (af, title, a))
    (haf1 : af ≠ checkpointFile ("videos/" ++ sanitize_filename title))
    (haf2 : af ≠ transcriptionFile ("videos/" ++ sanitize_filename title)
      (sanitize_filename title))
    (hload : lookupFS (checkpointFile ("videos/" ++ sanitize_filename title)) w.fs =
      some (FileData.ckD c))
    (hsil : c.silence_removed = some true)
    (htr : c.transcribed = some true)
    (hsum : c.summary_generated = some true)
    (hpa : fsExists (processedAudioFile ("videos/" ++ sanitize_filename title)
      (sanitize_filename title)) w.fs = true)
    (htf : lookupFS (transcriptionFile ("videos/" ++ sanitize_filename title)
      (sanitize_filename title)) w.fs = some (FileData.segsD segs))
    (hsegs : segs ≠ [])
    (hsf : fsExists (summaryFile ("videos/" ++ sanitize_filename title)
      (sanitize_filename title)) w.fs = true) :
    ∃ w', mainRun cfg w = Except.ok w' ∧
      w'.silenceCount = w.silenceCount ∧ w'.transcribeCount = w.transcribeCount ∧
      w'.summaryCount = w.summaryCount ∧ w'.dlCount = w.dlCount + 1 := by
  set st := sanitize_filename title with hst
  set vf := "videos/" ++ st with hvf
  set pa := processedAudioFile vf st with hpa2
  set tf := transcriptionFile vf st with htf2
  set sf := summaryFile vf st with hsf2
  unfold mainRun download_video
  rw [hdl]
  dsimp only
  unfold mainSteps
  dsimp only
  rw [← hst, ← hvf, ← hpa2, ← htf2, ← hsf2]
  set fs2 : FS := setFS af (FileData.audioD a) w.fs with hfs2
  have hload2 : load_checkpoint vf fs2 = c := by
    unfold load_checkpoint
    rw [hfs2, lookupFS_setFS_ne (Ne.symm haf1), hload]
  rw [hload2]
  set ck1 : Checkpoint := { c with
    downloaded := some true
    url := some cfg.url
    title := some title } with hck1
  set w3 : World := ⟨save_checkpoint vf ck1 fs2, w.dlCount + 1, w.silenceCount,
    w.transcribeCount, w.summaryCount⟩ with hw3
  have hexpa : fsExists pa w3.fs = true := by
    rw [hw3]
    exact fsExists_setFS_mono _ _ (by rw [hfs2]; exact fsExists_setFS_mono _ _ hpa)
  rw [stage_silence_skip cfg vf af pa ck1 w3 hexpa (by rw [hck1]; exact hsil)]
  dsimp only
  have hextf : fsExists tf w3.fs = true := by
    rw [hw3]
    refine fsExists_setFS_mono _ _ ?_
    rw [hfs2]
    refine fsExists_setFS_mono _ _ ?_
    rw [fsExists, htf]
    rfl
  have hlooktf : lookupFS tf w3.fs = some (FileData.segsD segs) := by
    rw [hw3]
    show lookupFS tf (setFS (checkpointFile vf) (FileData.ckD ck1) fs2) = _
    rw [lookupFS_setFS_ne (Ne.symm (checkpointFile_ne_transcriptionFile vf st)), hfs2,
      lookupFS_setFS_ne (Ne.symm haf2), htf]
  rw [stage_transcribe_load cfg pa tf ck1 w3 segs hextf (by rw [hck1]; exact htr) hlooktf]
  dsimp only
  have hexsf : fsExists sf (save_checkpoint vf { ck1 with transcribed := some true }
      (setFS tf (FileData.segsD segs) w3.fs)) = true := by
    refine fsExists_setFS_mono _ _ (fsExists_setFS_mono _ _ ?_)
    rw [hw3]
    exact fsExists_setFS_mono _ _ (by rw [hfs2]; exact fsExists_setFS_mono _ _ hsf)
  rw [stage_summary_skip vf tf sf title segs ck1 w3 hsegs hexsf
    (by rw [hck1]; exact hsum)]
  exact ⟨_, rfl, rfl, rfl, rfl, rfl⟩

theorem fresh_run (cfg : Config) (w : World) (af title : String) (a : AudioData)
    (x : ℚ × ℚ × String) (xs : List (ℚ × ℚ × String))
    (hdl : cfg.dl = Except.ok (af, title, a))
    (haf1 : af ≠ checkpointFile ("videos/" ++ sanitize_filename title))
    (hload : lookupFS (checkpointFile ("videos/" ++ sanitize_filename title)) w.fs = none)
    (hwh : cfg.whisper = true)
    (hasr : cfg.asr = Except.ok ((x :: xs).map mkSeg)) :
    ∃ w', mainRun cfg w = Except.ok w' ∧
      w'.dlCount = w.dlCount + 1 ∧ w'.silenceCount = w.silenceCount + 1 ∧
      w'.transcribeCount = w.transcribeCount + 1 ∧
      w'.summaryCount = w.summaryCount + 1 ∧
      fsExists (processedAudioFile ("videos/" ++ sanitize_filename title)
        (sanitize_filename title)) w'.fs = true ∧
      fsExists (transcriptionFile ("videos/" ++ sanitize_filename title)
        (sanitize_filename title)) w'.fs = true ∧
      fsExists (summaryFile ("videos/" ++ sanitize_filename title)
        (sanitize_filename title)) w'.fs = true ∧
      ∃ cf : Checkpoint,
        lookupFS (checkpointFile ("videos/" ++ sanitize_filename title)) w'.fs =
          some (FileData.ckD cf) ∧
        cf.downloaded = some true ∧ cf.silence_removed = some true ∧
        cf.transcribed = some true ∧ cf.summary_generated = some true ∧
        cf.completed = some true := by
  set st := sanitize_filename title with hst
  set vf := "videos/" ++ st with hvf
  set pa := processedAudioFile vf st with hpa2
  set tf := transcriptionFile vf st with htf2
  set sf := summaryFile vf st with hsf2
  unfold mainRun download_video
  rw [hdl]
  dsimp only
  unfold mainSteps
  dsimp only
  rw [← hst, ← hvf, ← hpa2, ← htf2, ← hsf2]
  set fs2 : FS := setFS af (FileData.audioD a) w.fs with hfs2
  have hload2 : load_checkpoint vf fs2 = {} := by
    unfold load_checkpoint
    rw [hfs2, lookupFS_setFS_ne (Ne.symm haf1), hload]
  rw [hload2]
  dsimp only
  set w3 : World := ⟨save_checkpoint vf
    { url := some cfg.url, title := some title, downloaded := some true,
      silence_removed := none, transcribed := none, summary_generated := none,
      completed := none } fs2,
    w.dlCount + 1, w.silenceCount, w.transcribeCount, w.summaryCount⟩ with hw3
  have hin : lookupFS af w3.fs = some (FileData.audioD a) := by
    rw [hw3]
    show lookupFS af (setFS (checkpointFile vf) _ fs2) = _
    rw [lookupFS_setFS_ne haf1, hfs2, lookupFS_setFS_self]
  obtain ⟨d, hd⟩ := stage_silence_run cfg vf af pa
    { url := some cfg.url, title := some title, downloaded := some true,
      silence_removed := none, transcribed := none, summary_generated := none,
      completed := none } w3 (Bool.and_false _) a hin
  rw [hd]
  dsimp only
  rw [stage_transcribe_run cfg pa tf _ _ (Bool.and_false _)]
  rw [show ∀ w4 : World, transcribe_audio cfg pa w4 =
    (some ((x :: xs).map mkSeg), ⟨w4.fs, w4.dlCount, w4.silenceCount,
      w4.transcribeCount + 1, w4.summaryCount⟩) from fun w4 => by
    simp [transcribe_audio, hwh, hasr]]
  dsimp only
  obtain ⟨s, hgs⟩ := generate_summary_wf_ok x xs title
  rw [stage_summary_run vf tf sf title ((x :: xs).map mkSeg) _ _
    (by simp) (Bool.and_false _) s hgs]
  refine ⟨_, rfl, rfl, rfl, rfl, rfl, ?_, ?_, ?_, ?_⟩
  · simp only [stage_finish, save_checkpoint]
    refine fsExists_setFS_mono _ _ (fsExists_setFS_mono _ _ (fsExists_setFS_mono _ _
      (fsExists_setFS_mono _ _ (fsExists_setFS_mono _ _ (fsExists_setFS_mono _ _ ?_)))))
    rw [fsExists, lookupFS_setFS_self]
    rfl
  · simp only [stage_finish, save_checkpoint]
    refine fsExists_setFS_mono _ _ (fsExists_setFS_mono _ _ (fsExists_setFS_mono _ _
      (fsExists_setFS_mono _ _ ?_)))
    rw [fsExists, lookupFS_setFS_self]
    rfl
  · simp only [stage_finish, save_checkpoint]
    refine fsExists_setFS_mono _ _ (fsExists_setFS_mono _ _ ?_)
    rw [fsExists, lookupFS_setFS_self]
    rfl
  · refine ⟨{ url := some cfg.url, title := some title, downloaded := some true,
              silence_removed := some true, transcribed := some true,
              summary_generated := some true, completed := some true },
      ?_, rfl, rfl, rfl, rfl, rfl⟩
    simp only [stage_finish, save_checkpoint]
    rw [lookupFS_setFS_self]

theorem mainRun_ok_silence_flag (cfg : Config) (w w' : World) (af title : String)
    (a : AudioData) (hdl : cfg.dl = Except.ok (af, title, a))
    (hmain : mainRun cfg w = Except.ok w') :
    ∃ ck2 : Checkpoint,
      lookupFS (checkpointFile ("videos/" ++ sanitize_filename title)) w'.fs =
        some (FileData.ckD ck2) ∧
      ck2.silence_removed = some true ∧ ck2.downloaded = some true ∧
      ck2.completed = some true := by
  unfold mainRun download_video at hmain
  rw [hdl] at hmain
  dsimp only at hmain
  unfold mainSteps at hmain
  dsimp only at hmain
  split at hmain
  · exact Except.noConfusion hmain
  · rename_i ck1 w1 heq
    have hspec := stage_silence_spec _ _ _ _ _ ck1 _ w1 heq
    obtain ⟨ck2, hlook, hcomp, hsil2, hdl2⟩ := stage_summary_spec _ _ _ _ _ ck1 _ w' hmain
    refine ⟨ck2, hlook, ?_, ?_, hcomp⟩
    · rw [hsil2, hspec.1]
    · rw [hdl2, hspec.2.2.2.1]

/-- Witness for C2: with whisper absent (`cfgC1`) on an empty world, the
run completes, writes no summary, leaves `transcribed` unset, and marks
`completed`. -/
theorem transcription_failure_degrades_witness :
    (∀ (path : String) (w0 : World), (transcribe_audio cfgC1 path w0).1 = none) ∧
    ∃ w', mainRun cfgC1 emptyWorld = Except.ok w' ∧
      w'.summaryCount = emptyWorld.summaryCount ∧
      (∃ cf : Checkpoint,
        lookupFS (checkpointFile ("videos/" ++ sanitize_filename "vid")) w'.fs =
          some (FileData.ckD cf) ∧
        cf.transcribed =
          (load_checkpoint ("videos/" ++ sanitize_filename "vid")
            emptyWorld.fs).transcribed ∧
        cf.completed = some true) ∧
      (∀ p : String, p ≠ "downloads/vid.mp3" →
        p ≠ checkpointFile ("videos/" ++ sanitize_filename "vid") →
        p ≠ processedAudioFile ("videos/" ++ sanitize_filename "vid")
          (sanitize_filename "vid") →
        lookupFS p w'.fs = lookupFS p emptyWorld.fs) :=
  transcription_failure_degrades cfgC1 emptyWorld "downloads/vid.mp3" "vid"
    (AudioData.raw 0) rfl (Or.inl rfl) (by decide) (by decide)

/-- C1 counterexample: a Source whose checkpoint marks Download complete
(`downloaded = true`) and whose download artifact exists on disk; re-
running the pipeline still invokes the downloader (its call count goes
from 0 to 1), so the claimed check-and-skip rule does not hold for the
Download stage. -/
theorem download_reexecuted_on_complete_source :
    (load_checkpoint "videos/vid" wAllDone.fs).downloaded = some true ∧
    fsExists "downloads/vid.mp3" wAllDone.fs = true ∧
    wAllDone.dlCount = 0 ∧
    (mainRun cfgC1 wAllDone).map World.dlCount = Except.ok 1 := by decide

/-- C1 amended: the check-artifact-and-flag skip rule holds for the
SilenceRemoval, Transcription, and SummaryGeneration stages but not for
Download, which is executed unconditionally on every run. First part:
on a Source whose checkpoint marks those three stages complete, whose
three artifacts exist, and whose transcription artifact parses to a
non-empty list, a re-run executes none of the three stage operations
(their call counters are unchanged) while the downloader still runs
once. Second part: on a Source with no checkpoint, all three stages
execute, their artifacts are persisted, and every flag is set in the
saved checkpoint. -/
theorem pipeline_skip_and_run :
    (∀ (cfg : Config) (w : World) (af title : String) (a : AudioData)
      (c : Checkpoint) (segs : List SegmentD),
      cfg.dl = Except.ok (af, title, a) →
      af ≠ checkpointFile ("videos/" ++ sanitize_filename title) →
      af ≠ transcriptionFile ("videos/" ++ sanitize_filename title)
        (sanitize_filename title) →
      lookupFS (checkpointFile ("videos/" ++ sanitize_filename title)) w.fs =
        some (FileData.ckD c) →
      c.silence_removed = some true →
      c.transcribed = some true →
      c.summary_generated = some true →
      fsExists (processedAudioFile ("videos/" ++ sanitize_filename title)
        (sanitize_filename title)) w.fs = true →
      lookupFS (transcriptionFile ("videos/" ++ sanitize_filename title)
        (sanitize_filename title)) w.fs = some (FileData.segsD segs) →
      segs ≠ [] →
      fsExists (summaryFile ("videos/" ++ sanitize_filename title)
        (sanitize_filename title)) w.fs = true →
      ∃ w', mainRun cfg w = Except.ok w' ∧
        w'.silenceCount = w.silenceCount ∧ w'.transcribeCount = w.transcribeCount ∧
        w'.summaryCount = w.summaryCount ∧ w'.dlCount = w.dlCount + 1) ∧
    (∀ (cfg : Config) (w : World) (af title : String) (a : AudioData)
      (x : ℚ × ℚ × String) (xs : List (ℚ × ℚ × String)),
      cfg.dl = Except.ok (af, title, a) →
      af ≠ checkpointFile ("videos/" ++ sanitize_filename title) →
      lookupFS (checkpointFile ("videos/" ++ sanitize_filename title)) w.fs = none →
      cfg.whisper = true →
      cfg.asr = Except.ok ((x :: xs).map mkSeg) →
      ∃ w', mainRun cfg w = Except.ok w' ∧
        w'.dlCount = w.dlCount + 1 ∧ w'.silenceCount = w.silenceCount + 1 ∧
        w'.transcribeCount = w.transcribeCount + 1 ∧
        w'.summaryCount = w.summaryCount + 1 ∧
        fsExists (processedAudioFile ("videos/" ++ sanitize_filename title)
          (sanitize_filename title)) w'.fs = true ∧
        fsExists (transcriptionFile ("videos/" ++ sanitize_filename title)
          (sanitize_filename title)) w'.fs = true ∧
        fsExists (summaryFile ("videos/" ++ sanitize_filename title)
          (sanitize_filename title)) w'.fs = true ∧
        ∃ cf : Checkpoint,
          lookupFS (checkpointFile ("videos/" ++ sanitize_filename title)) w'.fs =
            some (FileData.ckD cf) ∧
          cf.downloaded = some true ∧ cf.silence_removed = some true ∧
          cf.transcribed = some true ∧ cf.summary_generated = some true ∧
          cf.completed = some true) :=
  ⟨resume_skip, fresh_run⟩

/-- Witness for the amended C1: re-running on the fully-processed
Source `wAllDone` re-executes none of the three checkpointed stages. -/
theorem pipeline_skip_and_run_witness :
    ∃ w', mainRun cfgC1 wAllDone = Except.ok w' ∧
      w'.silenceCount = wAllDone.silenceCount ∧
      w'.transcribeCount = wAllDone.transcribeCount ∧
      w'.summaryCount = wAllDone.summaryCount ∧
      w'.dlCount = wAllDone.dlCount + 1 :=
  pipeline_skip_and_run.1 cfgC1 wAllDone "downloads/vid.mp3" "vid" (AudioData.raw 0)
    ckAllDone [⟨some 0, some 10, some "hello"⟩] rfl (by decide) (by decide) (by decide)
    rfl rfl rfl (by decide) (by decide) (by decide) (by decide)

/-- C6 counterexample: on an input path that does not exist, the final
copy-through fallback (`shutil.copy2`) itself raises, so `remove_silence`
does not hold for *every* input audio path. -/
theorem remove_silence_missing_input_raises :
    remove_silence cfgNoFfmpeg "in.mp3" "out.mp3" emptyWorld =
      Except.error "FileNotFoundError" := by decide

/-- C6 amended: for every input path naming an existing audio file,
`remove_silence` returns the output path and some output file exists,
whichever of the three tiers (pydub, ffmpeg filter, copy-through) ran;
and on any run of the pipeline that completes, the saved checkpoint has
`silence_removed = true` (and `completed = true`). -/
theorem silence_removal_never_fails :
    (∀ (cfg : Config) (audio_file output_file : String) (w : World) (a : AudioData),
      lookupFS audio_file w.fs = some (FileData.audioD a) →
      ∃ w2, remove_silence cfg audio_file output_file w =
        Except.ok (output_file, w2) ∧ fsExists output_file w2.fs = true) ∧
    (∀ (cfg : Config) (w w' : World) (af title : String) (a : AudioData),
      cfg.dl = Except.ok (af, title, a) → mainRun cfg w = Except.ok w' →
      ∃ ck2 : Checkpoint,
        lookupFS (checkpointFile ("videos/" ++ sanitize_filename title)) w'.fs =
          some (FileData.ckD ck2) ∧
        ck2.silence_removed = some true ∧ ck2.downloaded = some true ∧
        ck2.completed = some true) := by
  constructor
  · intro cfg audio_file output_file w a h
    obtain ⟨d, hd⟩ := remove_silence_ok cfg audio_file output_file w a h
    refine ⟨_, hd, ?_⟩
    rw [fsExists, lookupFS_setFS_self]
    rfl
  · exact mainRun_ok_silence_flag

/-- Witness for the amended C6: removing silence from the existing
download artifact of `wAllDone` succeeds and produces an output file. -/
theorem silence_removal_never_fails_witness :
    ∃ w2, remove_silence cfgC1 "downloads/vid.mp3" "out.mp3" wAllDone =
      Except.ok ("out.mp3", w2) ∧ fsExists "out.mp3" w2.fs = true :=
  silence_removal_never_fails.1 cfgC1 "downloads/vid.mp3" "out.mp3" wAllDone
    (AudioData.raw 0) (by decide)
